import Mathlib

/-!
Shallow embedding of the logbot control core (crates `speed`, `directions`,
`line`, `oscillate`, `acceleration`, `calibration`, and the command actor of
`server/src/hardware.rs`).

Modelling conventions:
* `f64` values are modelled as `ℚ` (exact real-valued semantics of the
  floating-point programs; all constants appearing in the code are exactly
  representable).
* `Instant`/`Duration` are modelled as natural-number timestamps; the
  monotonic-clock subtraction `Instant::elapsed` and `Duration::saturating_sub`
  are truncated natural subtraction.
* The thread-local RNG used by `kmeans` (`values.choose_multiple(&mut rng, k)`)
  is modelled by passing the chosen initial centroid list as an explicit
  parameter.
* Hardware capability calls (`drive`, `spin`, `stop`, sensor reads) either
  succeed or kill the actor; the actor model below describes the non-failing
  executions, which is what the claims are about.
-/

/-- Clamp of `f64::clamp(lo, hi)` on rationals (`lo ≤ hi`). -/
def ratClamp (lo hi v : ℚ) : ℚ := max lo (min hi v)

/-! ## crate `speed` (src/crates/speed/src/lib.rs) -/

/-- Wrapper around an `f64` value, bounds enforced by its constructors. -/
structure Speed where
  val : ℚ
deriving DecidableEq, Repr

/-- Get the underlying value (`Speed::value`). -/
def Speed.value (s : Speed) : ℚ := s.val

/-- `Speed::MIN`. -/
def Speed.MIN : Speed := ⟨0⟩

/-- `Speed::HALF`. -/
def Speed.HALF : Speed := ⟨1/2⟩

/-- `Speed::MAX`. -/
def Speed.MAX : Speed := ⟨1⟩

/-- `Speed::new_clamp`: clamp the argument into `[0, 1]`. -/
def Speed.new_clamp (value : ℚ) : Speed := ⟨ratClamp 0 1 value⟩

/-- `Speed::saturating_add_f64`. -/
def Speed.saturating_add_f64 (s : Speed) (value : ℚ) : Speed :=
  Speed.new_clamp (s.val + value)

/-- `Speed::saturating_sub_f64`. -/
def Speed.saturating_sub_f64 (s : Speed) (value : ℚ) : Speed :=
  Speed.new_clamp (s.val - value)

/-- `Mul for Speed` (product of the underlying values, no clamping). -/
def Speed.mul (a b : Speed) : Speed := ⟨a.val * b.val⟩

/-! ## crate `directions` (motor.rs, spin.rs, vehicle.rs) -/

/-- Directions in which a motor can move. -/
inductive MotorDirection where
  | forward (speed : Speed)
  | backward (speed : Speed)
deriving DecidableEq, Repr

/-- `SpeedControl::speed` for `MotorDirection`. -/
def MotorDirection.speed : MotorDirection → Speed
  | .forward s => s
  | .backward s => s

/-- `SpeedControl::with_speed` for `MotorDirection`. -/
def MotorDirection.with_speed : MotorDirection → Speed → MotorDirection
  | .forward _, s => .forward s
  | .backward _, s => .backward s

/-- `Not for MotorDirection`: flip the variant, keep the speed. -/
def MotorDirection.not : MotorDirection → MotorDirection
  | .forward s => .backward s
  | .backward s => .forward s

/-- `MotorDirection::saturating_add_f64`. -/
def MotorDirection.saturating_add_f64 (d : MotorDirection) (value : ℚ) : MotorDirection :=
  d.with_speed (d.speed.saturating_add_f64 value)

/-- `MotorDirection::wrapping_sub_f64`: subtraction past zero flips the
variant and carries the excess. -/
def MotorDirection.wrapping_sub_f64 (d : MotorDirection) (value : ℚ) : MotorDirection :=
  let new_speed := d.speed.value - value
  if new_speed < 0 then d.not.with_speed (Speed.new_clamp |new_speed|)
  else d.with_speed (Speed.new_clamp new_speed)

/-- `MotorDirection::saturating_add`. -/
def MotorDirection.saturating_add (d : MotorDirection) (s : Speed) : MotorDirection :=
  d.with_speed (d.speed.saturating_add_f64 s.value)

/-- `MotorDirection::wrapping_sub`. -/
def MotorDirection.wrapping_sub (d : MotorDirection) (s : Speed) : MotorDirection :=
  d.wrapping_sub_f64 s.value

/-- `Mul<Speed> for MotorDirection`. -/
def MotorDirection.mulSpeed (d : MotorDirection) (s : Speed) : MotorDirection :=
  d.with_speed (d.speed.mul s)

/-- Directions in which the vehicle can spin in place. -/
inductive SpinDirection where
  | left (speed : Speed)
  | right (speed : Speed)
deriving DecidableEq, Repr

/-- `Not for SpinDirection`. -/
def SpinDirection.not : SpinDirection → SpinDirection
  | .left s => .right s
  | .right s => .left s

/-- Pair of motor directions for the two wheels. -/
structure VehicleDirection where
  left : MotorDirection
  right : MotorDirection
deriving DecidableEq, Repr

/-- `Stop::is_stop` for `VehicleDirection`: both wheel speeds exactly zero. -/
def VehicleDirection.is_stop (d : VehicleDirection) : Bool :=
  decide (d.left.speed.value = 0 ∧ d.right.speed.value = 0)

/-- `Mul<Speed> for VehicleDirection`. -/
def VehicleDirection.mulSpeed (d : VehicleDirection) (s : Speed) : VehicleDirection :=
  ⟨d.left.mulSpeed s, d.right.mulSpeed s⟩

/-! ## crate `calibration` (kmeans.rs and lib.rs) -/

/-- Nearest-centroid search of `kmeans` step 2: fold over the centroid list
keeping the strictly smallest absolute distance (first index wins ties).
The `f64::MAX` initialiser is modelled as `none` (no minimum yet). -/
def nearestCentroidAux (value : ℚ) : List ℚ → ℕ → Option (ℚ × ℕ) → ℕ
  | [], _, none => 0
  | [], _, some (_, bj) => bj
  | c :: cs, j, none => nearestCentroidAux value cs (j + 1) (some (|value - c|, j))
  | c :: cs, j, some (d, bj) =>
      if |value - c| < d then nearestCentroidAux value cs (j + 1) (some (|value - c|, j))
      else nearestCentroidAux value cs (j + 1) (some (d, bj))

/-- Index of the nearest centroid to `value` (0 when there are no centroids,
matching the `best_centroid = 0` initialiser). -/
def nearestCentroid (centroids : List ℚ) (value : ℚ) : ℕ :=
  nearestCentroidAux value centroids 0 none

/-- Values assigned to cluster `j` in input order. -/
def clusterOf (values : List ℚ) (assignments : List ℕ) (j : ℕ) : List ℚ :=
  ((values.zip assignments).filter fun p => decide (p.2 = j)).map Prod.fst

/-- Arithmetic mean of a list (only ever used on nonempty lists). -/
def listMean (l : List ℚ) : ℚ := l.sum / (l.length : ℚ)

/-- `kmeans` step 3: recompute each centroid as the mean of its assigned
values; a centroid with an empty cluster keeps its previous value. -/
def updateCentroidsAux (values : List ℚ) (assignments : List ℕ) :
    List ℚ → ℕ → List ℚ
  | [], _ => []
  | c :: cs, j =>
      (if (clusterOf values assignments j).isEmpty then c
       else listMean (clusterOf values assignments j)) ::
        updateCentroidsAux values assignments cs (j + 1)

/-- Centroid update over the whole centroid list. -/
def updateCentroids (values : List ℚ) (assignments : List ℕ)
    (centroids : List ℚ) : List ℚ :=
  updateCentroidsAux values assignments centroids 0

/-- The fixed-budget Lloyd iteration of `kmeans`: each round assigns every
value to its nearest centroid, then updates the centroids; there is no
convergence early-exit.  Returns the assignments of the final round together
with the final centroids. -/
def kmeansLoop (values : List ℚ) : List ℚ → List ℕ → ℕ → List ℕ × List ℚ
  | centroids, assignments, 0 => (assignments, centroids)
  | centroids, _, n + 1 =>
      let a := values.map fun x => nearestCentroid centroids x
      kmeansLoop values (updateCentroids values a centroids) a n

/-- `kmeans(values, k, max_iters)`.  The random draw of `k` distinct samples
(`values.choose_multiple(&mut rng, k)`) is passed in as `initCentroids`. -/
def kmeans (values : List ℚ) (initCentroids : List ℚ) (maxIters : ℕ) : List ℕ :=
  (kmeansLoop values initCentroids (List.replicate values.length 0) maxIters).1

/-- `average_cluster_sizes`: the mean of each of the `k` clusters, `0.0` for
an empty cluster. -/
def average_cluster_sizes (values : List ℚ) (assignments : List ℕ) (k : ℕ) :
    List ℚ :=
  (List.range k).map fun j =>
    if (clusterOf values assignments j).isEmpty then 0
    else listMean (clusterOf values assignments j)

/-- Raw-reading thresholds produced by calibration (`u8` fields as `ℕ`). -/
structure SensorCalibration where
  line : ℕ
  floor : ℕ
deriving DecidableEq, Repr

/-- `SensorCalibration::average`: midpoint of line and floor. -/
def SensorCalibration.average (c : SensorCalibration) : ℚ :=
  ((c.line : ℚ) + (c.floor : ℚ)) / 2

/-- Rust `f64 as u8` (a saturating cast truncating toward zero). -/
def f64_as_u8 (q : ℚ) : ℕ := min 255 (Int.toNat ⌊q⌋)

/-- Minimum of a list by value (`min_by` with `partial_cmp`); the source
unwraps on the always-nonempty two-element averages list. -/
def listMinD : List ℚ → ℚ
  | [] => 0
  | x :: xs => xs.foldl min x

/-- Maximum of a list by value (`max_by` with `partial_cmp`). -/
def listMaxD : List ℚ → ℚ
  | [] => 0
  | x :: xs => xs.foldl max x

/-- Logged raw sensor readings of one calibration sweep. -/
structure SingleSensorCalibration where
  data : List ℚ
deriving DecidableEq, Repr

/-- `SingleSensorCalibration::calibrate`: run `kmeans` with `k = 2` and
`max_iters = 100`, average both clusters, and use the larger average as the
line and the smaller as the floor.  `initCentroids` stands for the random
initial centroid draw. -/
def SingleSensorCalibration.calibrate (s : SingleSensorCalibration)
    (initCentroids : List ℚ) : SensorCalibration :=
  let assignments := kmeans s.data initCentroids 100
  let averages := average_cluster_sizes s.data assignments 2
  SensorCalibration.mk (f64_as_u8 (listMaxD averages)) (f64_as_u8 (listMinD averages))

/-! ## crate `line` (follow.rs) -/

/-- Per-session parameters for line following. -/
structure FollowLineConfig where
  default_speed : Speed
  proportional : ℚ
  derivative : ℚ
  integral : Option ℚ
  calibration : SensorCalibration
  reset_integral_on_target : Bool
deriving DecidableEq, Repr

/-- Mutable controller state carried between `step` calls. -/
structure FollowLineState where
  config : FollowLineConfig
  last_error : ℚ
  derivative : ℚ
  integral : ℚ
deriving DecidableEq, Repr

/-- `FollowLineState::new`. -/
def FollowLineState.new (config : FollowLineConfig) : FollowLineState :=
  ⟨config, 0, 0, 0⟩

/-- `FollowLineState::step`: one PID update turning a raw sensor reading into
a differential drive command; returns the command and the updated state. -/
def FollowLineState.step (s : FollowLineState) (sensor_value : ℕ) :
    VehicleDirection × FollowLineState :=
  let error : ℚ := (sensor_value : ℚ) - s.config.calibration.average
  let derivative := error - s.last_error
  let last_error := error
  let integral :=
    if s.config.reset_integral_on_target ∧ |error| < 1 then 0
    else s.integral + error
  let control0 := s.config.proportional * error + s.config.derivative * derivative
  let control :=
    match s.config.integral with
    | some integral_multi => control0 + integral_multi * integral
    | none => control0
  let max_speed := s.config.default_speed.value + control
  let undershoot := max_speed - Speed.MAX.value
  let speed :=
    if undershoot > 0 then s.config.default_speed.saturating_sub_f64 undershoot
    else s.config.default_speed
  let left := (MotorDirection.forward speed).wrapping_sub_f64 control
  let right := (MotorDirection.forward speed).saturating_add_f64 control
  (VehicleDirection.mk left right,
   { s with last_error := last_error, derivative := derivative, integral := integral })

/-! ## crate `oscillate` -/

/-- Oscillation configuration (`duration` in nanoseconds, `multiplier` the
value of the `NonZero<u32>` growth multiplier). -/
structure Oscillate where
  duration : ℕ
  direction : SpinDirection
  multiplier : ℕ
deriving DecidableEq, Repr

/-- State of an active oscillation; `since_last` is the `Instant` of the last
direction switch. -/
structure ActiveOscillation where
  config : Oscillate
  since_last : ℕ
deriving DecidableEq, Repr

/-- `Instant::elapsed` of `since_last` at the current time `now`. -/
def ActiveOscillation.elapsed (o : ActiveOscillation) (now : ℕ) : ℕ :=
  now - o.since_last

/-- `ActiveOscillation::step`: when the dwell time has strictly elapsed,
negate the direction, multiply the duration by the growth multiplier and
restart the timer (the spin capability call is an effect outside this pure
state transition); otherwise a no-op.  Returns whether a switch occurred. -/
def ActiveOscillation.step (o : ActiveOscillation) (now : ℕ) :
    ActiveOscillation × Bool :=
  if o.config.duration < o.elapsed now then
    ({ config := { o.config with
         direction := o.config.direction.not,
         duration := o.config.duration * o.config.multiplier },
       since_last := now }, true)
  else (o, false)

/-- `ActiveOscillation::next_oscillation`: time left until the next switch
(saturating subtraction). -/
def ActiveOscillation.next_oscillation (o : ActiveOscillation) (now : ℕ) : ℕ :=
  o.config.duration - o.elapsed now

/-- `ActiveOscillation::should_step`. -/
def ActiveOscillation.should_step (o : ActiveOscillation) (now : ℕ) : Bool :=
  decide (o.next_oscillation now = 0)

/-! ## crate `acceleration` (lib.rs, the linear ramp used by the actor) -/

/-- Ramp state: configured duration in milliseconds and the optional ramp
start timestamp (milliseconds). -/
structure Acceleration where
  duration_ms : ℕ
  last : Option ℕ
deriving DecidableEq, Repr

/-- `Acceleration::new`. -/
def Acceleration.new (duration_ms : ℕ) : Acceleration := ⟨duration_ms, none⟩

/-- `Accelerate::accelerate`: a stop direction clears the ramp start and
passes through; otherwise the ramp start is set on first use and the
direction's speed is scaled by the clamped elapsed fraction. -/
def accelerate (d : VehicleDirection) (a : Acceleration) (now : ℕ) :
    VehicleDirection × Acceleration :=
  if d.is_stop then (d, { a with last := none })
  else
    let start := a.last.getD now
    let since_last : ℚ := ((now - start : ℕ) : ℚ)
    let multiplier := since_last / (a.duration_ms : ℚ)
    (d.mulSpeed (Speed.new_clamp multiplier), { a with last := some start })

/-! ## Command actor (server/src/hardware.rs, `handle_commands`)

The actor is modelled as a state machine.  `ActorState` holds the two
actor-owned variables (`left_calibration` and `on_line`; the logged but
unused `_right_calibration` is omitted).  `BusyOp` names the long-running
operation whose inner polling loop is currently executing; `none` in a
returned mode means control went back to the outer `while` loop.
`dispatch` is the outer `match` on a received command, `poll` the inner
`try_recv` match shared (arm for arm) by the three long-running operations.
Replies are sent before the corresponding operation's work loop runs. -/

/-- Commands of the actor mailbox (each carries a reply channel in the
source; here the reply is the first component of the transition result). -/
inductive Command where
  | health
  | followLine
  | calibrate
  | findEdge
  | stop
  | demo
deriving DecidableEq, Repr

/-- `FollowLineResult`. -/
inductive FollowLineResult where
  | success
  | alreadyFollowing
  | noCalibration
  | findingEdge
  | midCalibration
  | notOnTheLine
deriving DecidableEq, Repr

/-- `CalibrateResult`. -/
inductive CalibrateResult where
  | success
  | alreadyCalibrating
  | findingEdge
  | following
deriving DecidableEq, Repr

/-- `FindEdgeResult`. -/
inductive FindEdgeResult where
  | success
  | alreadyEdging
  | follow
  | calibrate
  | noCalibration
deriving DecidableEq, Repr

/-- `StopResult`: which operation, if any, the stop cancelled. -/
inductive StopResult where
  | nothing
  | followLine
  | findEdge
  | calibrate
deriving DecidableEq, Repr

/-- `DemoResult`. -/
inductive DemoResult where
  | success
deriving DecidableEq, Repr

/-- Reply sent into a command's oneshot channel. -/
inductive Reply where
  | healthOk
  | followLineReply (r : FollowLineResult)
  | calibrateReply (r : CalibrateResult)
  | findEdgeReply (r : FindEdgeResult)
  | stopReply (r : StopResult)
  | demoReply (r : DemoResult)
deriving DecidableEq, Repr

/-- Actor-owned state of `handle_commands`. -/
structure ActorState where
  leftCalibration : Option SensorCalibration
  onLine : Bool
deriving DecidableEq, Repr

/-- The long-running operation whose inner polling loop is executing. -/
inductive BusyOp where
  | following
  | calibrating
  | findingEdge
deriving DecidableEq, Repr

/-- Outer-loop handling of one received command: the reply that is sent, the
actor state afterwards, and the operation (if any) whose polling loop is
entered.  The `Demo` arm runs the demo script to completion and then clears
`on_line`. -/
def dispatch (st : ActorState) (c : Command) : Reply × ActorState × Option BusyOp :=
  match c with
  | .health => (.healthOk, st, none)
  | .demo => (.demoReply .success, { st with onLine := false }, none)
  | .followLine =>
      if !st.onLine then (.followLineReply .notOnTheLine, st, none)
      else
        match st.leftCalibration with
        | some _ => (.followLineReply .success, st, some .following)
        | none => (.followLineReply .noCalibration, st, none)
  | .calibrate => (.calibrateReply .success, { st with onLine := false }, some .calibrating)
  | .findEdge =>
      match st.leftCalibration with
      | none => (.findEdgeReply .noCalibration, st, none)
      | some _ => (.findEdgeReply .success, st, some .findingEdge)
  | .stop => (.stopReply .nothing, st, none)

/-- Inner-loop (`try_recv`) handling of one command arriving while the
operation `op` is in progress: `Stop` stops the vehicle, names the cancelled
operation and returns to the outer loop; `Demo` replies success, runs the
demo script, clears `on_line` and returns to the outer loop; `Health` is
acknowledged; the three operation commands are denied and the operation
continues unchanged. -/
def poll (op : BusyOp) (st : ActorState) (c : Command) :
    Reply × ActorState × Option BusyOp :=
  match c with
  | .health => (.healthOk, st, some op)
  | .demo => (.demoReply .success, { st with onLine := false }, none)
  | .followLine =>
      (.followLineReply
        (match op with
         | .following => .alreadyFollowing
         | .calibrating => .midCalibration
         | .findingEdge => .findingEdge), st, some op)
  | .calibrate =>
      (.calibrateReply
        (match op with
         | .following => .following
         | .calibrating => .alreadyCalibrating
         | .findingEdge => .findingEdge), st, some op)
  | .findEdge =>
      (.findEdgeReply
        (match op with
         | .following => .follow
         | .calibrating => .calibrate
         | .findingEdge => .alreadyEdging), st, some op)
  | .stop =>
      (.stopReply
        (match op with
         | .following => .followLine
         | .calibrating => .calibrate
         | .findingEdge => .findEdge), st, none)

/-- Natural completion of the `FindEdge` operation (the sensor reading came
within tolerance 2 of the calibrated line value): the vehicle stops and
`on_line` is set. -/
def completeFindEdge (st : ActorState) : ActorState := { st with onLine := true }

/-- Natural completion of the `Calibrate` operation: the computed calibration
is cached. -/
def completeCalibrate (st : ActorState) (c : SensorCalibration) : ActorState :=
  { st with leftCalibration := some c }

/-- Spec-side classification of replies: the replies that the specification's
command protocol presents as a `Busy(_)` denial (an operation command refused
because another operation is mid-flight). -/
def Reply.isBusyDenial : Reply → Bool
  | .followLineReply .alreadyFollowing => true
  | .followLineReply .midCalibration => true
  | .followLineReply .findingEdge => true
  | .calibrateReply .alreadyCalibrating => true
  | .calibrateReply .following => true
  | .calibrateReply .findingEdge => true
  | .findEdgeReply .alreadyEdging => true
  | .findEdgeReply .follow => true
  | .findEdgeReply .calibrate => true
  | _ => false

/-- Modelled from the spec: the `CommandDenied` half of the spec's command
protocol (`Busy(Command) | Required(Command)`).  The enum is referenced by
the HTTP layer but its defining module is not among the sources. -/
inductive CommandDenied where
  | busy (c : Command)
  | required (c : Command)
deriving DecidableEq, Repr

/-- Modelled from the spec: how `FollowLineResult` replies read in the
spec's `CommandResult` vocabulary; in particular the `NotOnTheLine` reply is
the denial `Err(Required(FindEdge))` and `NoCalibration` is
`Err(Required(Calibrate))`. -/
def followLineDenial : FollowLineResult → Option CommandDenied
  | .success => none
  | .alreadyFollowing => some (.busy .followLine)
  | .midCalibration => some (.busy .calibrate)
  | .findingEdge => some (.busy .findEdge)
  | .notOnTheLine => some (.required .findEdge)
  | .noCalibration => some (.required .calibrate)

/-! ## Helper lemmas -/

theorem ratClamp_eq_self {q : ℚ} (h0 : 0 ≤ q) (h1 : q ≤ 1) : ratClamp 0 1 q = q := by
  unfold ratClamp
  rw [min_eq_right h1, max_eq_right h0]

/-! ## Claims -/

/-- C8: for every input `f`, `Speed::new_clamp(f)` produces a `Speed` whose
`value()` lies in `[0.0, 1.0]`. -/
theorem new_clamp_in_bounds (f : ℚ) :
    0 ≤ (Speed.new_clamp f).value ∧ (Speed.new_clamp f).value ≤ 1 := by
  unfold Speed.new_clamp Speed.value ratClamp
  exact ⟨le_max_left 0 _, max_le (by norm_num) (min_le_left 1 f)⟩

/-- C5: for a `MotorDirection` of speed `s` and a subtrahend `Speed` `v`
(both within the `Speed` bounds), `wrapping_sub` flips the direction variant
and carries the excess `v - s` as the new speed when `v > s`, and preserves
the variant with speed `s - v` when `v ≤ s`; in particular
`Forward(0.3).wrapping_sub(0.8) = Backward(0.5)` (exactly, in the rational
model). -/
theorem wrapping_sub_flips_variant (d : MotorDirection) (v : Speed)
    (h1 : 0 ≤ d.speed.val) (h2 : d.speed.val ≤ 1)
    (h3 : 0 ≤ v.val) (h4 : v.val ≤ 1) :
    (d.wrapping_sub v =
      if d.speed.val < v.val then d.not.with_speed ⟨v.val - d.speed.val⟩
      else d.with_speed ⟨d.speed.val - v.val⟩) ∧
    (MotorDirection.forward ⟨3/10⟩).wrapping_sub ⟨4/5⟩ =
      MotorDirection.backward ⟨1/2⟩ := by
  constructor
  · simp only [MotorDirection.wrapping_sub, MotorDirection.wrapping_sub_f64]
    rcases lt_or_ge d.speed.val v.val with h | h
    · have hneg : d.speed.value - v.value < 0 := by
        unfold Speed.value; linarith
      rw [if_pos h, if_pos hneg]
      have habs : |d.speed.value - v.value| = v.val - d.speed.val := by
        rw [abs_of_neg hneg]; unfold Speed.value; ring
      rw [habs]
      unfold Speed.new_clamp
      rw [ratClamp_eq_self (by linarith) (by linarith)]
    · have hnonneg : ¬ (d.speed.value - v.value < 0) := by
        unfold Speed.value; linarith
      rw [if_neg (not_lt.mpr h), if_neg hnonneg]
      unfold Speed.new_clamp
      rw [show d.speed.value - v.value = d.speed.val - v.val from rfl]
      rw [ratClamp_eq_self (by linarith) (by linarith)]
  · simp only [MotorDirection.wrapping_sub, MotorDirection.wrapping_sub_f64]
    have habs : |(3/10 : ℚ) - 4/5| = 1/2 := by
      rw [show (3/10 : ℚ) - 4/5 = -(1/2) by norm_num, abs_neg]
      exact abs_of_pos (by norm_num)
    norm_num [MotorDirection.speed, Speed.value, MotorDirection.not,
      MotorDirection.with_speed, Speed.new_clamp, ratClamp, habs, min_def, max_def]
    rw [show |(1/2 : ℚ)| = 1/2 from abs_of_pos (by norm_num)]
    norm_num

/-- Witness for C5 at `Forward(0.3).wrapping_sub(0.8)`. -/
theorem wrapping_sub_flips_variant_witness :
    (MotorDirection.forward ⟨3/10⟩).wrapping_sub ⟨4/5⟩ =
      MotorDirection.backward ⟨1/2⟩ :=
  (wrapping_sub_flips_variant (.forward ⟨3/10⟩) ⟨4/5⟩
    (by norm_num [MotorDirection.speed]) (by norm_num [MotorDirection.speed])
    (by norm_num) (by norm_num)).2

/-- C3: sending `FollowLine` to a fresh actor (no calibration cached,
`on_line = false`) is answered immediately with the `NotOnTheLine` denial --
the spec's `Err(Required(FindEdge))` -- and no operation starts and no actor
state changes. -/
theorem followLine_fresh_denied :
    dispatch ⟨none, false⟩ .followLine =
      (.followLineReply .notOnTheLine, ⟨none, false⟩, none) ∧
    followLineDenial .notOnTheLine = some (.required .findEdge) :=
  ⟨rfl, rfl⟩

/-- C2 counterexample: a `Demo` command received mid-`FollowLine` is not a
`Stop`, yet it is not answered with a Busy-style denial, it clears `on_line`,
and it aborts the running operation. -/
theorem busy_poll_demo_not_denied :
    (poll .following ⟨some ⟨195, 25⟩, true⟩ .demo).1.isBusyDenial = false ∧
    (poll .following ⟨some ⟨195, 25⟩, true⟩ .demo).2.1 ≠
      (⟨some ⟨195, 25⟩, true⟩ : ActorState) ∧
    (poll .following ⟨some ⟨195, 25⟩, true⟩ .demo).2.2 ≠ some .following ∧
    Command.demo ≠ Command.stop := by
  refine ⟨rfl, ?_, ?_, ?_⟩ <;> decide

/-- C2 (amended): while a long-running operation is in progress, the
operation commands `FollowLine`/`Calibrate`/`FindEdge` are answered
immediately with a Busy-style denial and leave the actor state and the
running operation unchanged; `Health` is acknowledged without interrupting;
`Stop` interrupts the operation and names it; and `Demo` is accepted, runs
the demo script, clears `on_line` and aborts the running operation. -/
theorem busy_poll_arbitration (op : BusyOp) (st : ActorState) :
    ((poll op st .followLine).1.isBusyDenial = true ∧
      (poll op st .followLine).2 = (st, some op)) ∧
    ((poll op st .calibrate).1.isBusyDenial = true ∧
      (poll op st .calibrate).2 = (st, some op)) ∧
    ((poll op st .findEdge).1.isBusyDenial = true ∧
      (poll op st .findEdge).2 = (st, some op)) ∧
    poll op st .health = (.healthOk, st, some op) ∧
    (poll op st .stop).2 = (st, none) ∧
    (poll op st .stop).1 = .stopReply
      (match op with
       | .following => .followLine
       | .calibrating => .calibrate
       | .findingEdge => .findEdge) ∧
    poll op st .demo = (.demoReply .success, { st with onLine := false }, none) := by
  cases op <;> simp [poll, Reply.isBusyDenial]

/-- C10: after a `Demo` command's script completes -- whether received in the
outer loop or mid-operation -- `on_line` is false; from any state with
`on_line = false` a `FollowLine` command is denied with `NotOnTheLine`
(`Required(FindEdge)`), and no command handling re-establishes
`on_line = true`: only the natural completion of a `FindEdge` operation
does. -/
theorem demo_clears_on_line (st : ActorState) (op : BusyOp) :
    ((dispatch st .demo).2.1.onLine = false ∧ (dispatch st .demo).2.2 = none) ∧
    ((poll op st .demo).2.1.onLine = false ∧ (poll op st .demo).2.2 = none) ∧
    (∀ c : Command, (dispatch { st with onLine := false } c).2.1.onLine = false) ∧
    (∀ (op2 : BusyOp) (c : Command),
      (poll op2 { st with onLine := false } c).2.1.onLine = false) ∧
    dispatch { st with onLine := false } .followLine =
      (.followLineReply .notOnTheLine, { st with onLine := false }, none) ∧
    followLineDenial .notOnTheLine = some (.required .findEdge) ∧
    (completeFindEdge { st with onLine := false }).onLine = true := by
  obtain ⟨cal, ol⟩ := st
  refine ⟨⟨rfl, rfl⟩, ⟨rfl, rfl⟩, ?_, ?_, ?_, rfl, rfl⟩
  · intro c
    cases c <;> cases cal <;> simp [dispatch]
  · intro op2 c
    cases c <;> cases op2 <;> simp [poll]
  · simp [dispatch]

/-- C6 counterexample: with a zero dwell duration, a `step` that performs a
switch leaves `should_step()` true immediately afterwards (the grown duration
is `0 * multiplier = 0`). -/
theorem oscillation_step_zero_duration :
    ((ActiveOscillation.mk ⟨0, .left ⟨1/10⟩, 2⟩ 0).step 1).2 = true ∧
    ((ActiveOscillation.mk ⟨0, .left ⟨1/10⟩, 2⟩ 0).step 1).1.should_step 1 = true := by
  constructor <;> rfl

/-- C6 (amended): for an oscillation with positive dwell duration (and the
growth multiplier at least 1, as its `NonZero<u32>` type guarantees),
immediately after a `step` that performs a switch `should_step()` is false,
the stored duration equals the previous duration times the growth
multiplier, and the spin direction has been negated; a `step` when the
oscillation is not yet due changes nothing and returns false. -/
theorem oscillation_step_spec (o : ActiveOscillation) (now : ℕ)
    (hdur : 0 < o.config.duration) (hmul : 1 ≤ o.config.multiplier) :
    ((o.step now).2 = true →
      ((o.step now).1.should_step now = false ∧
       (o.step now).1.config.duration = o.config.duration * o.config.multiplier ∧
       (o.step now).1.config.direction = o.config.direction.not)) ∧
    (o.should_step now = false → o.step now = (o, false)) := by
  constructor
  · intro hsw
    by_cases h : o.config.duration < o.elapsed now
    · simp only [ActiveOscillation.step, if_pos h]
      refine ⟨?_, by trivial, by trivial⟩
      unfold ActiveOscillation.should_step ActiveOscillation.next_oscillation
        ActiveOscillation.elapsed
      simp only [decide_eq_false_iff_not]
      have hpos : 0 < o.config.duration * o.config.multiplier :=
        Nat.mul_pos hdur hmul
      omega
    · simp [ActiveOscillation.step, if_neg h] at hsw
  · intro hns
    unfold ActiveOscillation.should_step ActiveOscillation.next_oscillation at hns
    simp only [decide_eq_false_iff_not] at hns
    have h : ¬ (o.config.duration < o.elapsed now) := by omega
    simp [ActiveOscillation.step, if_neg h]

/-- Witness for C6 (amended): duration 5, multiplier 2, a switching step at
time 7. -/
theorem oscillation_step_spec_witness :
    ((ActiveOscillation.mk ⟨5, .left ⟨1/10⟩, 2⟩ 0).step 7).1.should_step 7 = false :=
  ((oscillation_step_spec ⟨⟨5, .left ⟨1/10⟩, 2⟩, 0⟩ 7 (by decide) (by decide)).1 rfl).1

/-- C7: the linear acceleration ramp passes a stop direction through unscaled
while clearing the stored start timestamp; a non-stop application sets the
start timestamp on first use and scales the direction's speed by
`clamp(elapsed / configured_duration, 0, 1)`; and after any stop application
the next non-stop application starts from multiplier 0 (ramps from zero). -/
theorem accelerate_spec (d : VehicleDirection) (a : Acceleration) (now : ℕ) :
    (accelerate d a now =
      if d.is_stop then (d, { a with last := none })
      else
        (d.mulSpeed ⟨max 0 (min 1
            (((now - a.last.getD now : ℕ) : ℚ) / (a.duration_ms : ℚ)))⟩,
         { a with last := some (a.last.getD now) })) ∧
    (∀ (d2 : VehicleDirection) (t : ℕ),
      (accelerate d2 (Acceleration.mk a.duration_ms none) t).1 =
        if d2.is_stop then d2 else d2.mulSpeed ⟨0⟩) := by
  constructor
  · rfl
  · intro d2 t
    by_cases h : d2.is_stop
    · simp [accelerate, h]
    · simp only [accelerate, h, Bool.false_eq_true, if_false, Option.getD_none,
        Nat.sub_self, Nat.cast_zero, zero_div]
      have : Speed.new_clamp 0 = ⟨0⟩ := by
        unfold Speed.new_clamp ratClamp
        norm_num
      rw [this]

/-- C9 counterexample: with `reset_integral_on_target = false` a step whose
error satisfies `|error| < 1.0` does not reset the integral (here it stays at
its accumulated value 5). -/
theorem integral_not_reset_without_flag :
    |((110 : ℕ) : ℚ) - (SensorCalibration.mk 195 25).average| < 1 ∧
    ((FollowLineState.mk ⟨⟨1/10⟩, 1/1000, 1/2000, none, ⟨195, 25⟩, false⟩ 0 0 5).step
        110).2.integral = 5 := by
  constructor
  · norm_num [SensorCalibration.average]
  · norm_num [FollowLineState.step, SensorCalibration.average]

/-- C9 (amended): when the config's `reset_integral_on_target` flag is set
(as the actor always sets it), a `FollowLineState` step whose error satisfies
`|error| < 1.0` leaves the integral at 0, so the next step begins with
`integral == 0`. -/
theorem integral_reset_on_target (s : FollowLineState) (v : ℕ)
    (hflag : s.config.reset_integral_on_target = true)
    (herr : |(v : ℚ) - s.config.calibration.average| < 1) :
    ((s.step v).2).integral = 0 := by
  simp only [FollowLineState.step]
  rw [if_pos ⟨hflag, herr⟩]

/-- Witness for C9 (amended): a state with the flag set, accumulated
integral 5 and a reading equal to the calibration average. -/
theorem integral_reset_on_target_witness :
    ((FollowLineState.mk ⟨⟨1/10⟩, 1/1000, 1/2000, none, ⟨195, 25⟩, true⟩ 0 0 5).step
        110).2.integral = 0 :=
  integral_reset_on_target _ 110 rfl (by norm_num [SensorCalibration.average])

/-- C4: every `FollowLineState` step returns the vehicle direction with
`left = Forward(target_speed).wrapping_sub(control)` and
`right = Forward(target_speed).saturating_add(control)`, where
`overflow = (default_speed + control) - 1.0` and `target_speed` is
`default_speed` saturating-reduced by `overflow` when positive, and
`default_speed` otherwise (`control` as computed by the PID formulas). -/
theorem follow_step_direction_formula (s : FollowLineState) (v : ℕ) :
    (s.step v).1 =
      (fun control =>
        (fun target =>
          VehicleDirection.mk
            ((MotorDirection.forward target).wrapping_sub_f64 control)
            ((MotorDirection.forward target).saturating_add_f64 control))
        (if s.config.default_speed.value + control - 1 > 0 then
          s.config.default_speed.saturating_sub_f64
            (s.config.default_speed.value + control - 1)
         else s.config.default_speed))
      (s.config.proportional * ((v : ℚ) - s.config.calibration.average) +
        s.config.derivative * (((v : ℚ) - s.config.calibration.average) - s.last_error) +
        (match s.config.integral with
         | some integral_multi => integral_multi *
             (if s.config.reset_integral_on_target ∧
                 |(v : ℚ) - s.config.calibration.average| < 1 then 0
              else s.integral + ((v : ℚ) - s.config.calibration.average))
         | none => 0)) := by
  simp only [FollowLineState.step]
  cases hI : s.config.integral with
  | none => simp [hI, Speed.MAX, Speed.value]
  | some im => simp [hI, Speed.MAX, Speed.value]

/-! ## Constant-data behaviour of the calibration pipeline (for C1) -/

theorem nearestCentroidAux_const (v : ℚ) :
    ∀ (cs : List ℚ), (∀ c ∈ cs, c = v) → ∀ (j bj : ℕ),
      nearestCentroidAux v cs j (some (0, bj)) = bj := by
  intro cs
  induction cs with
  | nil => intro _ j bj; rfl
  | cons c cs ih =>
      intro h j bj
      have hc : c = v := h c (List.mem_cons_self c cs)
      simp only [nearestCentroidAux, hc, sub_self, abs_zero, lt_self_iff_false, if_false]
      exact ih (fun x hx => h x (List.mem_cons_of_mem c hx)) (j + 1) bj

theorem nearestCentroid_const (v c : ℚ) (cs : List ℚ)
    (h : ∀ x ∈ c :: cs, x = v) : nearestCentroid (c :: cs) v = 0 := by
  have hc : c = v := h c (List.mem_cons_self c cs)
  show nearestCentroidAux v (c :: cs) 0 none = 0
  simp only [nearestCentroidAux, hc, sub_self, abs_zero]
  exact nearestCentroidAux_const v cs (fun x hx => h x (List.mem_cons_of_mem c hx)) 1 0

theorem map_nearest_const (v : ℚ) (data : List ℚ) (hdv : ∀ x ∈ data, x = v)
    (c : ℚ) (cs : List ℚ) (h : ∀ x ∈ c :: cs, x = v) :
    (data.map fun x => nearestCentroid (c :: cs) x) = List.replicate data.length 0 := by
  induction data with
  | nil => rfl
  | cons y ys ih =>
      simp only [List.map_cons, List.length_cons, List.replicate_succ]
      rw [hdv y (List.mem_cons_self y ys), nearestCentroid_const v c cs h,
        ih (fun x hx => hdv x (List.mem_cons_of_mem y hx))]

theorem clusterOf_replicate_zero (l : List ℚ) :
    clusterOf l (List.replicate l.length 0) 0 = l := by
  induction l with
  | nil => rfl
  | cons x xs ih =>
      simp only [List.length_cons, List.replicate_succ]
      simp only [clusterOf, List.zip_cons_cons, List.filter_cons] at ih ⊢
      simp [ih]

theorem clusterOf_replicate_succ (l : List ℚ) (j : ℕ) :
    clusterOf l (List.replicate l.length 0) (j + 1) = [] := by
  induction l with
  | nil => rfl
  | cons x xs ih =>
      simp only [List.length_cons, List.replicate_succ]
      simp only [clusterOf, List.zip_cons_cons, List.filter_cons] at ih ⊢
      simp [ih]

theorem sum_const_list (v : ℚ) :
    ∀ (l : List ℚ), (∀ x ∈ l, x = v) → l.sum = (l.length : ℚ) * v := by
  intro l
  induction l with
  | nil => intro _; simp
  | cons x xs ih =>
      intro h
      have hx : x = v := h x (List.mem_cons_self x xs)
      rw [List.sum_cons, ih (fun y hy => h y (List.mem_cons_of_mem x hy)), hx,
        List.length_cons]
      push_cast
      ring

theorem listMean_const (v : ℚ) (l : List ℚ) (hne : l ≠ [])
    (h : ∀ x ∈ l, x = v) : listMean l = v := by
  have hsum : l.sum = (l.length : ℚ) * v := sum_const_list v l h
  have hlen : (l.length : ℚ) ≠ 0 := by
    have : l.length ≠ 0 := fun h0 => hne (List.length_eq_zero.mp h0)
    exact_mod_cast this
  unfold listMean
  rw [hsum, mul_comm, mul_div_assoc, div_self hlen, mul_one]

theorem updateCentroidsAux_const (data : List ℚ) :
    ∀ (cs : List ℚ) (j : ℕ), 1 ≤ j →
      updateCentroidsAux data (List.replicate data.length 0) cs j = cs := by
  intro cs
  induction cs with
  | nil => intro j _; rfl
  | cons c cs ih =>
      intro j hj
      obtain ⟨j', rfl⟩ : ∃ j', j = j' + 1 := ⟨j - 1, by omega⟩
      simp only [updateCentroidsAux, clusterOf_replicate_succ, List.isEmpty_nil, if_true]
      rw [ih (j' + 2) (by omega)]

theorem updateCentroids_const (v : ℚ) (data : List ℚ) (hne : data ≠ [])
    (hdv : ∀ x ∈ data, x = v) (c : ℚ) (cs : List ℚ) :
    updateCentroids data (List.replicate data.length 0) (c :: cs) = v :: cs := by
  unfold updateCentroids
  simp only [updateCentroidsAux, clusterOf_replicate_zero]
  rw [updateCentroidsAux_const data cs 1 (le_refl 1)]
  have hemp : data.isEmpty = false := by
    cases data with
    | nil => exact absurd rfl hne
    | cons a as => rfl
  rw [hemp]
  simp only [Bool.false_eq_true, if_false]
  rw [listMean_const v data hne hdv]

theorem kmeansLoop_const (v : ℚ) (data : List ℚ) (hne : data ≠ [])
    (hdv : ∀ x ∈ data, x = v) :
    ∀ (n : ℕ) (c : ℚ) (cs : List ℚ), (∀ x ∈ c :: cs, x = v) →
      (kmeansLoop data (c :: cs) (List.replicate data.length 0) n).1 =
        List.replicate data.length 0 := by
  intro n
  induction n with
  | zero => intro c cs _; rfl
  | succ n ih =>
      intro c cs h
      show (kmeansLoop data
        (updateCentroids data (data.map fun x => nearestCentroid (c :: cs) x) (c :: cs))
        (data.map fun x => nearestCentroid (c :: cs) x) n).1 = _
      rw [map_nearest_const v data hdv c cs h,
        updateCentroids_const v data hne hdv c cs]
      exact ih v cs (by
        intro x hx
        rcases List.mem_cons.mp hx with hx | hx
        · exact hx
        · exact h x (List.mem_cons_of_mem c hx))

theorem kmeans_const (v : ℚ) (data : List ℚ) (hne : data ≠ [])
    (hdv : ∀ x ∈ data, x = v) (init : List ℚ) (hinit : init ≠ [])
    (hiv : ∀ x ∈ init, x = v) :
    kmeans data init 100 = List.replicate data.length 0 := by
  obtain ⟨c, cs, rfl⟩ := List.exists_cons_of_ne_nil hinit
  exact kmeansLoop_const v data hne hdv 100 c cs hiv

theorem average_cluster_sizes_const (v : ℚ) (data : List ℚ) (hne : data ≠ [])
    (hdv : ∀ x ∈ data, x = v) :
    average_cluster_sizes data (List.replicate data.length 0) 2 = [v, 0] := by
  have hemp : data.isEmpty = false := by
    cases data with
    | nil => exact absurd rfl hne
    | cons a as => rfl
  show List.map _ (List.range 2) = _
  rw [show List.range 2 = [0, 1] from rfl]
  simp only [List.map_cons, List.map_nil]
  rw [clusterOf_replicate_zero, show (1 : ℕ) = 0 + 1 from rfl,
    clusterOf_replicate_succ]
  rw [hemp]
  simp only [List.isEmpty_nil, if_true, Bool.false_eq_true, if_false]
  rw [listMean_const v data hne hdv]

theorem calibrate_const (v : ℚ) (data init : List ℚ) (hne : data ≠ [])
    (hdv : ∀ x ∈ data, x = v) (hinit : init ≠ []) (hiv : ∀ x ∈ init, x = v)
    (h0 : 0 ≤ v) :
    SingleSensorCalibration.calibrate ⟨data⟩ init = ⟨f64_as_u8 v, 0⟩ := by
  unfold SingleSensorCalibration.calibrate
  show SensorCalibration.mk
      (f64_as_u8 (listMaxD (average_cluster_sizes data (kmeans data init 100) 2)))
      (f64_as_u8 (listMinD (average_cluster_sizes data (kmeans data init 100) 2))) = _
  rw [kmeans_const v data hne hdv init hinit hiv,
    average_cluster_sizes_const v data hne hdv]
  have hmax : listMaxD [v, 0] = v := by
    show max v 0 = v
    exact max_eq_left h0
  have hmin : listMinD [v, 0] = 0 := by
    show min v 0 = 0
    exact min_eq_right h0
  rw [hmax, hmin]
  have : f64_as_u8 0 = 0 := by
    unfold f64_as_u8
    norm_num
  rw [this]

/-- C1 counterexample: on the data `[5, 5]`, which has only one distinct
value, `SingleSensorCalibration::calibrate` does not fail -- the function is
total -- and proceeds to produce the `SensorCalibration {line: 5, floor: 0}`
(for the only possible initial centroid draw `[5, 5]`). -/
theorem calibrate_no_precondition_failure :
    SingleSensorCalibration.calibrate ⟨[5, 5]⟩ [5, 5] = ⟨5, 0⟩ := by
  have h := calibrate_const 5 [5, 5] [5, 5] (by decide)
    (by intro x hx; rcases List.mem_cons.mp hx with h | h
        · exact h
        · simpa using h)
    (by decide)
    (by intro x hx; rcases List.mem_cons.mp hx with h | h
        · exact h
        · simpa using h)
    (by norm_num)
  rw [h]
  have : f64_as_u8 5 = 5 := by
    unfold f64_as_u8
    norm_num
    rfl
  rw [this]

/-- C1 (amended): `calibrate` performs no distinct-value precondition check
and cannot fail: on any nonempty data with a single distinct value `v ≥ 0`
(and any initial centroid draw from the data) it proceeds to produce the
`SensorCalibration` with `line = v as u8` and `floor = 0`, the empty second
cluster averaging to `0.0`. -/
theorem calibrate_constant_data_total (v : ℚ) (data init : List ℚ)
    (hne : data ≠ []) (hdv : ∀ x ∈ data, x = v)
    (hinit : init ≠ []) (hiv : ∀ x ∈ init, x ∈ data) (h0 : 0 ≤ v) :
    SingleSensorCalibration.calibrate ⟨data⟩ init = ⟨f64_as_u8 v, 0⟩ :=
  calibrate_const v data init hne hdv hinit (fun x hx => hdv x (hiv x hx)) h0

/-- Witness for C1 (amended): constant data `[7, 7, 7]` with initial
centroid draw `[7, 7]`. -/
theorem calibrate_constant_data_total_witness :
    SingleSensorCalibration.calibrate ⟨[7, 7, 7]⟩ [7, 7] = ⟨7, 0⟩ := by
  have h := calibrate_constant_data_total 7 [7, 7, 7] [7, 7] (by decide)
    (by intro x hx
        simp only [List.mem_cons, List.not_mem_nil, or_false] at hx
        rcases hx with h | h | h <;> exact h)
    (by decide)
    (by intro x hx
        simp only [List.mem_cons, List.not_mem_nil, or_false] at hx
        rcases hx with h | h <;> simp [h])
    (by norm_num)
  rw [h]
  have : f64_as_u8 7 = 7 := by
    unfold f64_as_u8
    norm_num
    rfl
  rw [this]
